import Mathlib

/-!
Verification of the ralph-orchestrator CLI against its specification.

Shallow embedding of the relevant Rust functions:
- Verbosity::resolve_with_env (crates/ralph-cli/src/main.rs),
- InputRouter::route_key and the prefix test (crates/ralph-tui/src/input.rs),
- emit_command, the journal-path resolution of events_command and
  emit_command, clean_command and pid_alive, the lock/worktree branch of
  run_command, the preflight/registry gate, and the restart handling
  (crates/ralph-cli/src/main.rs),
- TelegramService::wait_for_response and check_for_response
  (crates/ralph-telegram/src/service.rs).

External effects are made explicit: fallible external calls become
parameters carrying their outcome, file contents become lists of lines,
and clock time is discretized to the one-second poll interval the source
uses.  Components of the repository that are declared but whose sources
are not available (ralph-core's loop_lock, worktree, loop_context,
registry and event_loop modules, the loop_runner module, and the
telegram StateManager) are modelled from the specification; each such
definition says so in its doc comment.
-/

/-! ## Verbosity resolution (claim C10)

Embeds the Verbosity enum and Verbosity::resolve_with_env from
crates/ralph-cli/src/main.rs. -/

/-- Verbosity level for streaming output. -/
inductive Verbosity where
  | quiet
  | normal
  | verbose
deriving DecidableEq, Repr

/-- Embeds Verbosity::resolve_with_env: CLI flags take precedence, then the
environment variables, quiet before verbose at each level. -/
def Verbosity.resolve_with_env
    (cli_verbose cli_quiet env_quiet env_verbose : Bool) : Verbosity :=
  if cli_quiet then .quiet
  else if cli_verbose then .verbose
  else if env_quiet then .quiet
  else if env_verbose then .verbose
  else .normal

/-! ## TUI input routing (claim C9)

Embeds InputRouter from crates/ralph-tui/src/input.rs.  Key events carry
the code and the modifier bits the router inspects. -/

/-- Key codes, restricted to what the router distinguishes. -/
inductive KeyCode where
  | char (c : Char)
  | other
deriving DecidableEq, Repr

/-- A key event: a code and the modifier flags. -/
structure KeyEvent where
  code : KeyCode
  ctrl : Bool
  alt : Bool
  shift : Bool
deriving DecidableEq, Repr

/-- Embeds the private prefix test of input.rs: the character key for
the letter a with the CONTROL modifier held. -/
def isPrefixKey (k : KeyEvent) : Bool :=
  (match k.code with
   | .char c => c = 'a'
   | .other => false) && k.ctrl

/-- Embeds extract_char: the character of a Char key, none otherwise. -/
def extract_char (k : KeyEvent) : Option Char :=
  match k.code with
  | .char c => some c
  | .other => none

/-- Input routing mode. -/
inductive InputMode where
  | normal
  | awaitingCommand
deriving DecidableEq, Repr

/-- Result of routing a key event. -/
inductive RouteResult where
  | forward (k : KeyEvent)
  | command (c : Char)
  | consumed
deriving DecidableEq, Repr

/-- Routes input between normal mode and command mode. -/
structure InputRouter where
  mode : InputMode
deriving DecidableEq, Repr

/-- Embeds InputRouter::new. -/
def InputRouter.new : InputRouter := ⟨.normal⟩

/-- Embeds InputRouter::route_key, returning the updated router together
with the routing result (the Rust method mutates self). -/
def InputRouter.route_key (r : InputRouter) (k : KeyEvent) :
    InputRouter × RouteResult :=
  match r.mode with
  | .normal =>
      if isPrefixKey k then (⟨.awaitingCommand⟩, .consumed)
      else (⟨.normal⟩, .forward k)
  | .awaitingCommand =>
      match extract_char k with
      | some c => (⟨.normal⟩, .command c)
      | none => (⟨.normal⟩, .consumed)

/-- The router state after processing a list of keys. -/
def runRouter (r : InputRouter) : List KeyEvent → InputRouter
  | [] => r
  | k :: ks => runRouter (r.route_key k).1 ks

/-- The per-step trace of routing a key sequence: for each key, the mode
the router was in when the key arrived, and the routing result. -/
def routeTrace (r : InputRouter) : List KeyEvent → List (InputMode × RouteResult)
  | [] => []
  | k :: ks => (r.mode, (r.route_key k).2) :: routeTrace (r.route_key k).1 ks

/-! ## Theorems for claim C10 -/

/-- Claim C10: verbosity resolution is the fixed precedence chain: a CLI
quiet flag always yields Quiet; otherwise a CLI verbose flag yields
Verbose; otherwise RALPH_QUIET yields Quiet; otherwise RALPH_VERBOSE
yields Verbose; otherwise Normal.  In particular CLI flags override the
environment, and with both environment variables set and no CLI flag,
Quiet wins. -/
theorem c10_verbosity_resolution :
    ∀ cliV envQ envV : Bool,
      Verbosity.resolve_with_env cliV true envQ envV = .quiet ∧
      Verbosity.resolve_with_env true false envQ envV = .verbose ∧
      Verbosity.resolve_with_env false false true envV = .quiet ∧
      Verbosity.resolve_with_env false false false true = .verbose ∧
      Verbosity.resolve_with_env false false false false = .normal ∧
      Verbosity.resolve_with_env false false true true = .quiet := by
  decide


/-! ## Helper lemmas for claim C9 -/

/-- A command result is produced only with the router in command mode, i.e.
either at position zero from a router already awaiting a command, or right
after a prefix key that was itself consumed. -/
theorem routerCommandPrev (ks : List KeyEvent) :
    ∀ (r : InputRouter) (i : Nat) (m : InputMode) (c : Char),
      (routeTrace r ks)[i]? = some (m, .command c) →
      (i = 0 ∧ r.mode = .awaitingCommand) ∨
      (1 ≤ i ∧ ∃ kp mp, ks[i - 1]? = some kp ∧ isPrefixKey kp = true ∧
        (routeTrace r ks)[i - 1]? = some (mp, .consumed)) := by
  induction ks with
  | nil => intro r i m c h; simp [routeTrace] at h
  | cons k ks ih =>
    intro r i m c h
    obtain ⟨rm⟩ := r
    match i with
    | 0 =>
      cases rm with
      | normal =>
        exfalso
        cases hpk : isPrefixKey k <;>
          simp [routeTrace, InputRouter.route_key, hpk] at h
      | awaitingCommand => exact Or.inl ⟨rfl, rfl⟩
    | j + 1 =>
      have h' : (routeTrace ((InputRouter.mk rm).route_key k).1 ks)[j]? =
          some (m, .command c) := by
        simpa [routeTrace] using h
      rcases ih _ j m c h' with ⟨hj, hmode⟩ | ⟨hj, kp, mp, hkp, hpfx, htr⟩
      · subst hj
        right
        have hrm : rm = .normal := by
          cases rm with
          | normal => rfl
          | awaitingCommand =>
            exfalso
            cases hec : extract_char k <;>
              simp [InputRouter.route_key, hec] at hmode
        subst hrm
        have hpk : isPrefixKey k = true := by
          cases hpk : isPrefixKey k
          · simp [InputRouter.route_key, hpk] at hmode
          · rfl
        refine ⟨Nat.le_refl 1, k, InputMode.normal, by simp, hpk, ?_⟩
        simp [routeTrace, InputRouter.route_key, hpk]
      · right
        refine ⟨Nat.le_add_left 1 j, kp, mp, ?_, hpfx, ?_⟩
        · match j, hj with
          | jj + 1, _ => simpa using hkp
        · match j, hj with
          | jj + 1, _ => simpa [routeTrace] using htr

/-- In normal mode a non-prefix key is forwarded unchanged. -/
theorem routerNormalForward (ks : List KeyEvent) :
    ∀ (r : InputRouter) (i : Nat) (k : KeyEvent) (res : RouteResult),
      (routeTrace r ks)[i]? = some (.normal, res) → ks[i]? = some k →
      isPrefixKey k = false → res = .forward k := by
  induction ks with
  | nil => intro r i k res h _ _; simp [routeTrace] at h
  | cons k0 ks ih =>
    intro r i k res h hk hpk
    obtain ⟨rm⟩ := r
    match i with
    | 0 =>
      have hk0 : k0 = k := by simpa using hk
      subst hk0
      simp only [routeTrace, List.getElem?_cons_zero, Option.some.injEq,
        Prod.mk.injEq] at h
      obtain ⟨h1, h2⟩ := h
      subst h1
      rw [← h2]
      simp [InputRouter.route_key, hpk]
    | j + 1 =>
      exact ih _ j k res (by simpa [routeTrace] using h) (by simpa using hk) hpk

/-- A prefix key is never forwarded, in either mode. -/
theorem routerPrefixNotForwarded (ks : List KeyEvent) :
    ∀ (r : InputRouter) (i : Nat) (k : KeyEvent) (m : InputMode) (k' : KeyEvent),
      ks[i]? = some k → isPrefixKey k = true →
      (routeTrace r ks)[i]? = some (m, .forward k') → False := by
  induction ks with
  | nil => intro r i k m k' hk _ _; simp at hk
  | cons k0 ks ih =>
    intro r i k m k' hk hpk h
    obtain ⟨rm⟩ := r
    match i with
    | 0 =>
      have hk0 : k0 = k := by simpa using hk
      subst hk0
      simp only [routeTrace, List.getElem?_cons_zero, Option.some.injEq,
        Prod.mk.injEq] at h
      obtain ⟨_, h2⟩ := h
      cases rm with
      | normal => simp [InputRouter.route_key, hpk] at h2
      | awaitingCommand =>
        cases hec : extract_char k0 <;>
          simp [InputRouter.route_key, hec] at h2
    | j + 1 =>
      exact ih _ j k m k' (by simpa using hk) hpk (by simpa [routeTrace] using h)

/-- After any key processed in command mode the router is back in normal
mode, whatever the key was. -/
theorem routerAwaitReset (ks : List KeyEvent) :
    ∀ (r : InputRouter) (i : Nat) (res : RouteResult),
      (routeTrace r ks)[i]? = some (.awaitingCommand, res) →
      (runRouter r (ks.take (i + 1))).mode = .normal := by
  induction ks with
  | nil => intro r i res h; simp [routeTrace] at h
  | cons k0 ks ih =>
    intro r i res h
    obtain ⟨rm⟩ := r
    match i with
    | 0 =>
      simp only [routeTrace, List.getElem?_cons_zero, Option.some.injEq,
        Prod.mk.injEq] at h
      obtain ⟨h1, _⟩ := h
      subst h1
      cases hec : extract_char k0 <;>
        simp [runRouter, InputRouter.route_key, hec]
    | j + 1 =>
      have h' : (routeTrace ((InputRouter.mk rm).route_key k0).1 ks)[j]? =
          some (.awaitingCommand, res) := by
        simpa [routeTrace] using h
      have := ih _ j res h'
      simpa [runRouter] using this

/-- Claim C9: routing a key sequence from a fresh router, route_key
returns Command only when the immediately preceding key event was the
control-keyed prefix and that prefix was itself consumed; a prefix key is
never forwarded; in Normal mode every non-prefix key is returned
unchanged as Forward; and after the key following the prefix is processed
the router is back in Normal mode whatever that key was. -/
theorem c9_input_router (ks : List KeyEvent) (i : Nat) :
    (∀ m c, (routeTrace InputRouter.new ks)[i]? = some (m, .command c) →
      1 ≤ i ∧ ∃ kp mp, ks[i - 1]? = some kp ∧ isPrefixKey kp = true ∧
        (routeTrace InputRouter.new ks)[i - 1]? = some (mp, .consumed)) ∧
    (∀ k m k', ks[i]? = some k → isPrefixKey k = true →
      (routeTrace InputRouter.new ks)[i]? = some (m, .forward k') → False) ∧
    (∀ k res, (routeTrace InputRouter.new ks)[i]? = some (.normal, res) →
      ks[i]? = some k → isPrefixKey k = false → res = .forward k) ∧
    (∀ res, (routeTrace InputRouter.new ks)[i]? = some (.awaitingCommand, res) →
      (runRouter InputRouter.new (ks.take (i + 1))).mode = .normal) := by
  refine ⟨?_, ?_, ?_, ?_⟩
  · intro m c h
    rcases routerCommandPrev ks InputRouter.new i m c h with ⟨_, hmode⟩ | hprev
    · exact absurd hmode (by simp [InputRouter.new])
    · exact hprev
  · intro k m k' hk hpk h
    exact routerPrefixNotForwarded ks InputRouter.new i k m k' hk hpk h
  · intro k res h hk hpk
    exact routerNormalForward ks InputRouter.new i k res h hk hpk
  · intro res h
    exact routerAwaitReset ks InputRouter.new i res h

/-- The key sequence used to witness claim C9: the control-keyed prefix
followed by the letter q. -/
def ksC9 : List KeyEvent :=
  [⟨.char 'a', true, false, false⟩, ⟨.char 'q', false, false, false⟩]

/-- Witness for claim C9 at the concrete sequence ksC9 and position 1:
the second key yields Command q, the first key is the prefix and was
consumed, and the router ends in Normal mode. -/
theorem c9_input_router_witness :
    (routeTrace InputRouter.new ksC9)[1]? =
      some (.awaitingCommand, .command 'q') ∧
    (1 ≤ 1 ∧ ∃ kp mp, ksC9[0]? = some kp ∧ isPrefixKey kp = true ∧
      (routeTrace InputRouter.new ksC9)[0]? = some (mp, .consumed)) ∧
    (runRouter InputRouter.new (ksC9.take 2)).mode = .normal :=
  ⟨by decide,
   (c9_input_router ksC9 1).1 .awaitingCommand 'q' (by decide),
   (c9_input_router ksC9 1).2.2.2 (.command 'q') (by decide)⟩

/-! ## The emit command and journal-path resolution (claims C1, C7)

Embeds emit_command and the events-file resolution of emit_command and
events_command from crates/ralph-cli/src/main.rs.  The journal is its
list of records; serde_json is an explicit parser argument. -/

/-- JSON values as far as the embedded commands distinguish them
(serde_json::Value). -/
inductive Jsonv where
  | null
  | bool (b : Bool)
  | num (n : Int)
  | str (s : String)
  | objEmpty
deriving DecidableEq, Repr

/-- Modelled from the spec: serde_json::from_str is an external library
function the source calls; this instance recognizes the JSON literals
null, true and false and the empty object, and treats every other string
as unparseable.  The theorems about emit_command quantify over an
arbitrary parser; this concrete instance appears only in witnesses and
counterexamples, at inputs where it agrees with serde_json. -/
def serdeParse (s : String) : Option Jsonv :=
  if s = "null" then some .null
  else if s = "true" then some (.bool true)
  else if s = "false" then some (.bool false)
  else if s = "\x7b\x7d" then some .objEmpty
  else none

/-- One journal record as built by emit_command: the JSON object with
keys topic, payload and ts. -/
structure EmitRecord where
  topic : String
  payload : Jsonv
  ts : String
deriving DecidableEq, Repr

/-- Embeds emit_command acting on the resolved events file, represented
as its list of records.  With the json flag set and a nonempty payload
the payload must parse (otherwise the command fails with Invalid JSON
payload and writes nothing) and is embedded as the parsed value; an
empty payload becomes JSON null; otherwise the payload is embedded as a
JSON string.  The record is appended at the end of the journal. -/
def emit_command (parse : String → Option Jsonv)
    (topic payload ts : String) (jsonFlag : Bool)
    (journal : List EmitRecord) : Except String (List EmitRecord) :=
  if jsonFlag && !payload.isEmpty then
    match parse payload with
    | none => .error ("Invalid JSON payload")
    | some v => .ok (journal ++ [⟨topic, v, ts⟩])
  else if payload.isEmpty then
    .ok (journal ++ [⟨topic, .null, ts⟩])
  else
    .ok (journal ++ [⟨topic, .str payload, ts⟩])

/-- Modelled from the spec: str::trim of the Rust standard library (an
external function the source applies to the marker file content),
removing whitespace characters from both ends of the string. -/
def rustTrim (s : String) : String :=
  ⟨((s.data.dropWhile Char.isWhitespace).reverse.dropWhile
      Char.isWhitespace).reverse⟩

/-- Embeds the journal-path resolution of emit_command: the path stored
in the .ralph/current-events marker wins whenever the marker is readable;
only otherwise does the command fall back to its file argument (which
clap defaults to .ralph/events.jsonl). -/
def resolveEmitEventsFile (marker : Option String) (fileArg : String) : String :=
  match marker with
  | some s => rustTrim s
  | none => fileArg

/-- Embeds the journal-path resolution of events_command: an explicitly
supplied file argument is used as given; only with no file argument is
the marker consulted, falling back to EventHistory::default_path. -/
def resolveEventsHistoryFile (fileArg : Option String) (marker : Option String)
    (defaultPath : String) : String :=
  match fileArg with
  | some p => p
  | none =>
    match marker with
    | some s => rustTrim s
    | none => defaultPath

/-- Counterexample for claim C1: with the json flag and the payload
"not json" (rejected by serde_json), the emit command fails and appends
no record at all, so it is not the case that every emit appends exactly
one record. -/
theorem c1_emit_invalid_json_counterexample :
    emit_command serdeParse ("build.done") ("not json")
        ("2026-01-30T00:00:00Z") true [] =
      .error ("Invalid JSON payload") := by
  rfl

/-- Claim C1 as amended: provided the payload parses as JSON whenever the
json flag is given with a nonempty payload, emit appends exactly one
record whose topic and ts are the given ones and whose payload is the
parsed JSON value when the json flag is given, JSON null when the
payload is empty, and a JSON string otherwise; all earlier journal
records are unchanged (the result extends the journal on the right). -/
theorem c1_emit_appends_record (parse : String → Option Jsonv)
    (topic payload ts : String) (jsonFlag : Bool) (journal : List EmitRecord)
    (hparse : jsonFlag = true → payload ≠ "" → (parse payload).isSome) :
    ∃ r : EmitRecord,
      emit_command parse topic payload ts jsonFlag journal =
        .ok (journal ++ [r]) ∧
      r.topic = topic ∧ r.ts = ts ∧
      (payload = "" → r.payload = .null) ∧
      (payload ≠ "" → jsonFlag = true → parse payload = some r.payload) ∧
      (payload ≠ "" → jsonFlag = false → r.payload = .str payload) := by
  have hEmp : ("" : String).isEmpty = true := rfl
  cases jsonFlag with
  | true =>
    by_cases hp : payload = ""
    · subst hp
      exact ⟨⟨topic, .null, ts⟩, by simp [emit_command, hEmp], rfl, rfl,
        fun _ => rfl, fun h _ => absurd rfl h, fun h _ => absurd rfl h⟩
    · obtain ⟨v, hv⟩ := Option.isSome_iff_exists.mp (hparse rfl hp)
      have hne : payload.isEmpty = false := by
        cases hE : payload.isEmpty
        · rfl
        · exact absurd ((String.isEmpty_iff payload).mp hE) hp
      exact ⟨⟨topic, v, ts⟩, by simp [emit_command, hne, hv], rfl, rfl,
        fun h => absurd h hp, fun _ _ => hv, fun _ h => by simp at h⟩
  | false =>
    by_cases hp : payload = ""
    · subst hp
      exact ⟨⟨topic, .null, ts⟩, by simp [emit_command, hEmp], rfl, rfl,
        fun _ => rfl, fun h _ => absurd rfl h, fun h _ => absurd rfl h⟩
    · have hne : payload.isEmpty = false := by
        cases hE : payload.isEmpty
        · rfl
        · exact absurd ((String.isEmpty_iff payload).mp hE) hp
      exact ⟨⟨topic, .str payload, ts⟩, by simp [emit_command, hne], rfl, rfl,
        fun h => absurd h hp, fun _ h => by simp at h, fun _ _ => rfl⟩

/-- Witness for claim C1: emitting topic build.done with the plain
payload hello onto a one-record journal appends exactly one string
record and leaves the earlier record unchanged. -/
theorem c1_emit_appends_record_witness :
    (false = true → ("hello" : String) ≠ "" → (serdeParse ("hello")).isSome) ∧
    ∃ r : EmitRecord,
      emit_command serdeParse ("build.done") ("hello")
          ("2026-01-30T00:00:00Z") false [⟨"task.start", .null, "t0"⟩] =
        .ok ([⟨"task.start", .null, "t0"⟩] ++ [r]) ∧
      r.topic = "build.done" ∧ r.ts = "2026-01-30T00:00:00Z" ∧
      (("hello" : String) = "" → r.payload = .null) ∧
      (("hello" : String) ≠ "" → false = true →
        serdeParse ("hello") = some r.payload) ∧
      (("hello" : String) ≠ "" → false = false → r.payload = .str ("hello")) :=
  ⟨by decide,
   c1_emit_appends_record serdeParse ("build.done") ("hello")
     ("2026-01-30T00:00:00Z") false [⟨"task.start", .null, "t0"⟩] (by decide)⟩

/-- Counterexample for claim C7: with an explicit file argument, the
events command uses that argument even though the marker names a
different live journal, so the marker does not take precedence for the
events command. -/
theorem c7_events_marker_counterexample :
    resolveEventsHistoryFile (some ("custom.jsonl"))
        (some ("/work/.ralph/events-1.jsonl")) (".ralph/events.jsonl") =
      "custom.jsonl" ∧
    ("custom.jsonl" : String) ≠ rustTrim ("/work/.ralph/events-1.jsonl") := by
  exact ⟨rfl, by decide⟩

/-- Claim C7 as amended: the emit command always resolves the journal via
the marker, overriding even an explicit file argument, and falls back to
its file argument only when the marker is absent or unreadable; the
events command uses an explicitly supplied file argument first and
consults the marker only when none is given, falling back to the default
path when the marker is also absent or unreadable. -/
theorem c7_journal_resolution (marker : Option String) (fileArg : String)
    (fileArgOpt : Option String) (defaultPath : String) :
    (∀ s, marker = some s → resolveEmitEventsFile marker fileArg = rustTrim s) ∧
    (marker = none → resolveEmitEventsFile marker fileArg = fileArg) ∧
    (∀ p, fileArgOpt = some p →
      resolveEventsHistoryFile fileArgOpt marker defaultPath = p) ∧
    (∀ s, fileArgOpt = none → marker = some s →
      resolveEventsHistoryFile fileArgOpt marker defaultPath = rustTrim s) ∧
    (fileArgOpt = none → marker = none →
      resolveEventsHistoryFile fileArgOpt marker defaultPath = defaultPath) := by
  refine ⟨?_, ?_, ?_, ?_, ?_⟩
  · intro s h; subst h; rfl
  · intro h; subst h; rfl
  · intro p h; subst h; rfl
  · intro s h1 h2; subst h1; subst h2; rfl
  · intro h1 h2; subst h1; subst h2; rfl

/-- Witness for claim C7: with the marker pointing at a live journal,
emit writes to the trimmed marker path, and events (with no file
argument) reads the same trimmed marker path. -/
theorem c7_journal_resolution_witness :
    (some (" /live.jsonl ") = some (" /live.jsonl " : String)) ∧
    resolveEmitEventsFile (some (" /live.jsonl ")) (".ralph/events.jsonl") =
      rustTrim (" /live.jsonl ") ∧
    resolveEventsHistoryFile none (some (" /live.jsonl "))
        (".ralph/events.jsonl") = rustTrim (" /live.jsonl ") :=
  ⟨rfl,
   (c7_journal_resolution (some (" /live.jsonl ")) (".ralph/events.jsonl")
     none (".ralph/events.jsonl")).1 _ rfl,
   (c7_journal_resolution (some (" /live.jsonl ")) (".ralph/events.jsonl")
     none (".ralph/events.jsonl")).2.2.2.1 _ rfl rfl⟩

/-! ## The clean command and stale-lock detection (claim C5)

Embeds pid_alive and clean_command from crates/ralph-cli/src/main.rs.
Filesystem outcomes (directory existence, deletions, the lock-metadata
read performed by LoopLock::read_existing) are parameters carrying the
result the corresponding call returns. -/

/-- The serialized lock content: pid, start time and prompt summary. -/
structure LockMetadata where
  pid : Nat
  started : String
  prompt : String
deriving DecidableEq, Repr

/-- Embeds pid_alive: on Unix, signal 0 probes the pid via the alive
oracle; the non-Unix fallback always reports true. -/
def pid_alive (isUnix : Bool) (alive : Nat → Bool) (pid : Nat) : Bool :=
  if isUnix then alive pid else true

/-- Embeds the staleness test of clean_command: read_existing gives
Err (none), Ok(None) (some none), or Ok(Some metadata) (some (some m));
the ok().flatten().map(..).unwrap_or(false) chain makes the lock stale
exactly when metadata was read and its pid is not alive. -/
def lockIsStale (readLock : Option (Option LockMetadata))
    (isUnix : Bool) (alive : Nat → Bool) : Bool :=
  match readLock with
  | some (some m) => !(pid_alive isUnix alive m.pid)
  | _ => false

/-- What a clean invocation did: the error it returned if any, whether
the agent directory was deleted, whether removal of the lock file was
attempted, and whether the lock file is still present afterwards. -/
structure CleanOutcome where
  err : Option String
  agentDirRemoved : Bool
  lockRemovalAttempted : Bool
  lockPresent : Bool
deriving DecidableEq, Repr

/-- Embeds clean_command.  The branches in source order: the diagnostics
flag short-circuits to clean_diagnostics; a scratchpad path without a
parent directory is an error; a missing agent directory returns early
with nothing cleaned; outside dry-run the agent directory is deleted
(failure is an error); only then is the stale-lock handling reached,
which outside dry-run attempts removal exactly for a stale lock
(a failed unlink only warns). -/
def clean_command (diagnostics dryRun : Bool)
    (scratchpadHasParent agentDirExists removeAgentDirOk : Bool)
    (lockExists : Bool) (readLock : Option (Option LockMetadata))
    (isUnix : Bool) (alive : Nat → Bool) (removeLockOk : Bool) : CleanOutcome :=
  if diagnostics then
    ⟨none, false, false, lockExists⟩
  else if !scratchpadHasParent then
    ⟨some ("Could not determine parent directory from scratchpad path"),
      false, false, lockExists⟩
  else if !agentDirExists then
    ⟨none, false, false, lockExists⟩
  else if !dryRun && !removeAgentDirOk then
    ⟨some ("Failed to delete directory"), false, false, lockExists⟩
  else
    if lockExists then
      if lockIsStale readLock isUnix alive then
        if dryRun then ⟨none, false, false, true⟩
        else if removeLockOk then ⟨none, true, true, false⟩
        else ⟨none, true, true, true⟩
      else ⟨none, !dryRun, false, true⟩
    else ⟨none, !dryRun, false, false⟩

/-- Counterexample for claim C5: a non-dry-run clean with the agent
directory absent returns early before the lock handling, so an existing
lock with readable metadata and a dead pid is left in place and its
removal is not even attempted. -/
theorem c5_clean_early_return_counterexample :
    clean_command false false true false true true
        (some (some ⟨12345, "2026-01-30T00:00:00Z", "demo"⟩))
        true (fun _ => false) true =
      ⟨none, false, false, true⟩ ∧
    pid_alive true (fun _ => false) 12345 = false := by
  exact ⟨rfl, rfl⟩

/-- Claim C5 as amended: when a non-dry-run clean without the
diagnostics flag reaches the lock handling (the scratchpad path has a
parent, the agent directory exists and its deletion succeeds), removal
of the loop lock is attempted exactly when the lock exists, its metadata
is readable and the recorded pid is not alive; a lock whose pid is alive
or whose metadata cannot be read is left in place; and on non-Unix
platforms pid_alive always reports true, so a lock is never judged
stale. -/
theorem c5_clean_stale_lock (lockExists : Bool)
    (readLock : Option (Option LockMetadata))
    (isUnix : Bool) (alive : Nat → Bool) (removeLockOk : Bool) :
    (clean_command false false true true true lockExists readLock
        isUnix alive removeLockOk).err = none ∧
    (clean_command false false true true true lockExists readLock
        isUnix alive removeLockOk).lockRemovalAttempted =
      (lockExists && lockIsStale readLock isUnix alive) ∧
    (clean_command false false true true true lockExists readLock
        isUnix alive removeLockOk).lockPresent =
      (lockExists && !(lockIsStale readLock isUnix alive && removeLockOk)) ∧
    (∀ readLock2 alive2, lockIsStale readLock2 false alive2 = false) := by
  refine ⟨?_, ?_, ?_, ?_⟩
  · cases hs : lockIsStale readLock isUnix alive <;>
      cases lockExists <;> cases removeLockOk <;>
        simp [clean_command, hs]
  · cases hs : lockIsStale readLock isUnix alive <;>
      cases lockExists <;> cases removeLockOk <;>
        simp [clean_command, hs]
  · cases hs : lockIsStale readLock isUnix alive <;>
      cases lockExists <;> cases removeLockOk <;>
        simp [clean_command, hs]
  · intro readLock2 alive2
    match readLock2 with
    | none => rfl
    | some none => rfl
    | some (some m) => simp [lockIsStale, pid_alive]

/-! ## Termination and restart handling (claim C4)

Embeds the post-loop restart handling of run_command
(crates/ralph-cli/src/main.rs): the restart marker is removed, then on
Unix the process exec-replaces itself with its own argv; on other
platforms this is an error raised at that point. -/

/-- Termination reasons.  Modelled from the spec: the TerminationReason
enum lives in ralph-core's event_loop module, which is not under src;
the variant list is the one the specification gives (subprocess and
unrecoverable failures collapse their payload kind). -/
inductive TerminationReason where
  | completionPromiseMet
  | maxIterations
  | maxRuntime
  | idleTimeout
  | stopRequested
  | restartRequested
  | subprocessFailed
  | unrecoverableError
deriving DecidableEq, Repr

/-- Modelled from the spec: TerminationReason::exit_code (ralph-core
event_loop module, not under src), following the exit-code table:
0 completion, 2 safeguards, 3 stop, 4 subprocess failure, 1
unrecoverable error, 0 restart. -/
def exit_code : TerminationReason → Int
  | .completionPromiseMet => 0
  | .maxIterations => 2
  | .maxRuntime => 2
  | .idleTimeout => 2
  | .stopRequested => 3
  | .restartRequested => 0
  | .subprocessFailed => 4
  | .unrecoverableError => 1

/-- A fragment of filesystem state: the set of paths present. -/
structure FsState where
  files : List String
deriving DecidableEq, Repr

/-- Removing a file drops its path (fs::remove_file; the command ignores
its error). -/
def FsState.removeFile (fs : FsState) (p : String) : FsState :=
  ⟨fs.files.filter (fun q => q != p)⟩

/-- How the run ends after the loop returns: an exec replacement with
a program and argument vector, a failed exec, the non-Unix restart
error, or a plain exit with a code. -/
inductive RunEnding where
  | execReplaced (program : String) (args : List String) (fs : FsState)
  | execFailed (msg : String) (fs : FsState)
  | restartUnsupported (msg : String) (fs : FsState)
  | exited (code : Int) (fs : FsState)
deriving DecidableEq, Repr

/-- Embeds the tail of run_command after run_loop_impl returns: on
RestartRequested the marker file is removed first, then on Unix the
process execs its own binary (argv element zero) with the remaining
original arguments (exec returns only on failure, which becomes an
error); on non-Unix platforms the restart is an error at this point.
For every other reason the process exits with the reason's exit code. -/
def handleLoopEnd (reason : TerminationReason) (isUnix execOk : Bool)
    (argv : List String) (workspaceRoot : String) (fs : FsState) : RunEnding :=
  if reason = .restartRequested then
    let fs2 := fs.removeFile (workspaceRoot ++ "/.ralph/restart-requested")
    if isUnix then
      if execOk then .execReplaced (argv.headD ("")) argv.tail fs2
      else .execFailed ("Failed to exec-replace process") fs2
    else .restartUnsupported ("Restart via exec-replace is only supported on Unix") fs2
  else .exited (exit_code reason) fs

/-- Claim C4: on RestartRequested the marker is removed before the exec,
the exec receives the original argv byte for byte (program then
arguments reassemble exactly argv), on non-Unix platforms the restart is
an error raised at that moment, and for every other reason the run just
exits with the reason's code (so no restart error can arise earlier). -/
theorem c4_restart_exec (reason : TerminationReason) (isUnix execOk : Bool)
    (argv : List String) (root : String) (fs : FsState)
    (hargv : argv ≠ []) :
    (reason = .restartRequested → isUnix = true → execOk = true →
      handleLoopEnd reason isUnix execOk argv root fs =
        .execReplaced (argv.headD ("")) argv.tail
          (fs.removeFile (root ++ "/.ralph/restart-requested")) ∧
      argv.headD ("") :: argv.tail = argv ∧
      (root ++ "/.ralph/restart-requested") ∉
        (fs.removeFile (root ++ "/.ralph/restart-requested")).files) ∧
    (reason = .restartRequested → isUnix = false →
      handleLoopEnd reason isUnix execOk argv root fs =
        .restartUnsupported
          ("Restart via exec-replace is only supported on Unix")
          (fs.removeFile (root ++ "/.ralph/restart-requested")) ∧
      (root ++ "/.ralph/restart-requested") ∉
        (fs.removeFile (root ++ "/.ralph/restart-requested")).files) ∧
    (reason ≠ .restartRequested →
      handleLoopEnd reason isUnix execOk argv root fs =
        .exited (exit_code reason) fs) := by
  refine ⟨?_, ?_, ?_⟩
  · intro hr hu he
    subst hr; subst hu; subst he
    refine ⟨rfl, ?_, ?_⟩
    · match argv, hargv with
      | a :: t, _ => rfl
    · simp [FsState.removeFile]
  · intro hr hu
    subst hr; subst hu
    exact ⟨rfl, by simp [FsState.removeFile]⟩
  · intro hr
    simp [handleLoopEnd, hr]

/-- Witness for claim C4: a restart on Unix with argv
[ralph, run, --continue] removes the marker and execs ralph with the
two remaining original arguments. -/
theorem c4_restart_exec_witness :
    (["ralph", "run", "--continue"] : List String) ≠ [] ∧
    (TerminationReason.restartRequested = .restartRequested →
        true = true → true = true →
      handleLoopEnd .restartRequested true true ["ralph", "run", "--continue"]
          ("/repo") ⟨["/repo/.ralph/restart-requested", "/repo/ralph.yml"]⟩ =
        .execReplaced (["ralph", "run", "--continue"].headD (""))
          ["ralph", "run", "--continue"].tail
          (FsState.removeFile ⟨["/repo/.ralph/restart-requested", "/repo/ralph.yml"]⟩
            ("/repo" ++ "/.ralph/restart-requested")) ∧
      (["ralph", "run", "--continue"].headD ("")) ::
          (["ralph", "run", "--continue"] : List String).tail =
        ["ralph", "run", "--continue"] ∧
      ("/repo" ++ "/.ralph/restart-requested") ∉
        (FsState.removeFile ⟨["/repo/.ralph/restart-requested", "/repo/ralph.yml"]⟩
          ("/repo" ++ "/.ralph/restart-requested")).files) :=
  ⟨by decide,
   (c4_restart_exec .restartRequested true true ["ralph", "run", "--continue"]
     ("/repo") ⟨["/repo/.ralph/restart-requested", "/repo/ralph.yml"]⟩
     (by decide)).1⟩

/-! ## Lock acquisition and worktree spawning (claims C2, C3)

Embeds the lock-handling match of run_command
(crates/ralph-cli/src/main.rs).  The lock primitives, the worktree
helpers and the registry live in ralph-core modules that are not under
src; their outcomes are parameters, and the worktree layout is modelled
from the specification. -/

/-- Outcome of LoopLock::try_acquire as matched by run_command. -/
inductive TryAcquireResult where
  | acquired
  | alreadyLocked (existing : LockMetadata)
  | unsupportedPlatform
  | otherError (msg : String)
deriving DecidableEq, Repr

/-- Modelled from the spec: ralph_core::LoopContext (not under src),
either the primary loop running in the repository root or a worktree
loop with its own workspace under the repository. -/
inductive LoopContext where
  | primary (root : String)
  | worktree (id : String) (workspacePath : String) (repoRoot : String)
deriving DecidableEq, Repr

/-- Whether the context is the primary loop. -/
def LoopContext.isPrimary : LoopContext → Bool
  | .primary _ => true
  | .worktree _ _ _ => false

/-- The workspace directory of the loop. -/
def LoopContext.workspace : LoopContext → String
  | .primary root => root
  | .worktree _ p _ => p

/-- A created worktree: its path and its branch. -/
structure WorktreeInfo where
  path : String
  branch : String
deriving DecidableEq, Repr

/-- Modelled from the spec: ralph_core::worktree::create_worktree (not
under src) creates a git worktree under repo slash .worktrees slash id
on a new branch named id. -/
def create_worktree (workspaceRoot loopId : String) : WorktreeInfo :=
  ⟨workspaceRoot ++ "/.worktrees/" ++ loopId, loopId⟩

/-- Modelled from the spec: a loops.json registry row as built by
LoopEntry::with_id (not under src): the memorable id, the prompt
summary, the worktree path and the workspace. -/
structure LoopEntry where
  id : String
  prompt : String
  worktreePath : Option String
  workspace : String
deriving DecidableEq, Repr

/-- What the lock-handling branch of run_command produced: the loop
context, whether the primary lock guard is held (Some), the registry
entry whose registration is pending until preflight passes, and whether
the worktree symlinks and context file were set up. -/
structure RunSetup where
  context : LoopContext
  lockHeld : Bool
  pendingRegistration : Option LoopEntry
  symlinksSetUp : Bool
  contextFileGenerated : Bool
deriving DecidableEq, Repr

/-- Embeds the match on LoopLock::try_acquire in run_command.  Primary
acquisition runs in place holding the guard.  On contention: with the
exclusive flag the process blocks in acquire_blocking (whose outcome is
the blockingOk parameter) and runs as primary with the guard; with
parallel loops disabled in config it fails; otherwise it derives the
memorable loopId, creates the worktree, sets up symlinks and the context
file, and prepares a pending registry entry, holding no lock guard.
An unsupported platform runs primary without a lock; any other lock
error propagates. -/
def acquireLoopContext (tryResult : TryAcquireResult) (blockingOk : Bool)
    (exclusive parallelEnabled : Bool)
    (workspaceRoot loopId promptSummary : String) : Except String RunSetup :=
  match tryResult with
  | .acquired =>
      .ok ⟨.primary workspaceRoot, true, none, false, false⟩
  | .alreadyLocked _ =>
      if exclusive then
        if blockingOk then .ok ⟨.primary workspaceRoot, true, none, false, false⟩
        else .error ("Failed to acquire loop lock in exclusive mode")
      else if !parallelEnabled then
        .error ("Another loop is already running; parallel loops are disabled in config")
      else
        let worktree := create_worktree workspaceRoot loopId
        .ok ⟨.worktree loopId worktree.path workspaceRoot, false,
          some ⟨loopId, promptSummary, some worktree.path, worktree.path⟩,
          true, true⟩
  | .unsupportedPlatform =>
      .ok ⟨.primary workspaceRoot, false, none, false, false⟩
  | .otherError msg => .error msg

/-- Claim C2: with the lock already held by another process, the
exclusive flag blocks on the lock and then runs as primary holding the
guard; with parallel loops disabled in config the run fails; otherwise
the run derives a fresh loop id and moves into a worktree at
.worktrees slash id on branch id with symlinked shared state and a
context file, holding no primary lock guard. -/
theorem c2_run_lock_contention (existing : LockMetadata) (blockingOk : Bool)
    (exclusive parallelEnabled : Bool) (root loopId prompt : String) :
    (exclusive = true → blockingOk = true →
      acquireLoopContext (.alreadyLocked existing) blockingOk exclusive
          parallelEnabled root loopId prompt =
        .ok ⟨.primary root, true, none, false, false⟩) ∧
    (exclusive = false → parallelEnabled = false →
      acquireLoopContext (.alreadyLocked existing) blockingOk exclusive
          parallelEnabled root loopId prompt =
        .error
          ("Another loop is already running; parallel loops are disabled in config")) ∧
    (exclusive = false → parallelEnabled = true →
      acquireLoopContext (.alreadyLocked existing) blockingOk exclusive
          parallelEnabled root loopId prompt =
        .ok ⟨.worktree loopId (root ++ "/.worktrees/" ++ loopId) root, false,
          some ⟨loopId, prompt, some (root ++ "/.worktrees/" ++ loopId),
            root ++ "/.worktrees/" ++ loopId⟩,
          true, true⟩ ∧
      (create_worktree root loopId).branch = loopId) := by
  refine ⟨?_, ?_, ?_⟩
  · intro he hb; subst he; subst hb; rfl
  · intro he hp; subst he; subst hp; rfl
  · intro he hp; subst he; subst hp; exact ⟨rfl, rfl⟩

/-- Witness for claim C2: with the lock held and neither the exclusive
flag nor parallel mode disabled, the run moves into the worktree for the
generated id and holds no lock guard. -/
theorem c2_run_lock_contention_witness :
    (false = false) ∧
    (acquireLoopContext (.alreadyLocked ⟨41, "t0", "p"⟩) false false true
        ("/repo") ("brisk-otter") ("fix the parser") =
      .ok ⟨.worktree ("brisk-otter") ("/repo" ++ "/.worktrees/" ++ "brisk-otter")
          ("/repo"), false,
        some ⟨"brisk-otter", "fix the parser",
          some ("/repo" ++ "/.worktrees/" ++ "brisk-otter"),
          "/repo" ++ "/.worktrees/" ++ "brisk-otter"⟩,
        true, true⟩ ∧
      (create_worktree ("/repo") ("brisk-otter")).branch = "brisk-otter") :=
  ⟨rfl,
   (c2_run_lock_contention ⟨41, "t0", "p"⟩ false false true ("/repo")
     ("brisk-otter") ("fix the parser")).2.2 rfl rfl⟩

/-- The state after the preflight gate of run_command: the propagated
preflight error if any, the registry contents, whether worktree removal
was attempted, and the surviving worktree paths. -/
structure GateOutcome where
  preflightError : Option String
  registry : List LoopEntry
  worktreeRemovalAttempted : Bool
  worktrees : List String
deriving DecidableEq, Repr

/-- Embeds the preflight and registration sequence of run_command: if
run_auto_preflight fails, a non-primary context removes its worktree
(remove_worktree can itself fail, in which case only a warning is
logged) and the error is returned with the registry untouched; only
when preflight succeeds is the pending entry registered (modelled from
the spec as appending to loops.json, LoopRegistry not being under src). -/
def preflightGate (ctx : LoopContext) (pendingReg : Option LoopEntry)
    (preflightResult : Except String Unit) (removeWorktreeOk : Bool)
    (registry : List LoopEntry) (worktrees : List String) : GateOutcome :=
  match preflightResult with
  | .error e =>
      if ctx.isPrimary then ⟨some e, registry, false, worktrees⟩
      else
        ⟨some e, registry, true,
          if removeWorktreeOk then
            worktrees.filter (fun p => p != ctx.workspace)
          else worktrees⟩
  | .ok _ =>
      match pendingReg with
      | some entry => ⟨none, registry ++ [entry], false, worktrees⟩
      | none => ⟨none, registry, false, worktrees⟩

/-- Claim C3: a worktree run registers its loop entry only after the
preflight checks pass; on preflight failure the created worktree is
removed (its removal is attempted, and when the removal succeeds it is
gone) and the registry is unchanged on the error path. -/
theorem c3_registry_after_preflight (ctx : LoopContext)
    (pendingReg : Option LoopEntry) (preflightResult : Except String Unit)
    (removeWorktreeOk : Bool) (registry : List LoopEntry)
    (worktrees : List String) :
    (∀ e, preflightResult = .error e →
      (preflightGate ctx pendingReg preflightResult removeWorktreeOk
          registry worktrees).preflightError = some e ∧
      (preflightGate ctx pendingReg preflightResult removeWorktreeOk
          registry worktrees).registry = registry ∧
      (ctx.isPrimary = false →
        (preflightGate ctx pendingReg preflightResult removeWorktreeOk
            registry worktrees).worktreeRemovalAttempted = true) ∧
      (ctx.isPrimary = false → removeWorktreeOk = true →
        ctx.workspace ∉
          (preflightGate ctx pendingReg preflightResult removeWorktreeOk
            registry worktrees).worktrees)) ∧
    (preflightResult = .ok () →
      (preflightGate ctx pendingReg preflightResult removeWorktreeOk
          registry worktrees).preflightError = none ∧
      (preflightGate ctx pendingReg preflightResult removeWorktreeOk
          registry worktrees).registry = registry ++ pendingReg.toList) := by
  constructor
  · intro e he
    subst he
    refine ⟨?_, ?_, ?_, ?_⟩
    · cases hp : ctx.isPrimary <;> simp [preflightGate, hp]
    · cases hp : ctx.isPrimary <;> simp [preflightGate, hp]
    · intro hp; simp [preflightGate, hp]
    · intro hp hr; subst hr; simp [preflightGate, hp]
  · intro ho
    subst ho
    match pendingReg with
    | some entry => exact ⟨rfl, rfl⟩
    | none => exact ⟨rfl, by simp [preflightGate]⟩

/-- Witness for claim C3: a failing preflight for a worktree loop leaves
the registry untouched and removes the created worktree before any
registration. -/
theorem c3_registry_after_preflight_witness :
    (Except.error ("agent binary not found") =
      (Except.error ("agent binary not found") : Except String Unit)) ∧
    ((preflightGate (.worktree ("brisk-otter") ("/repo/.worktrees/brisk-otter")
          ("/repo"))
        (some ⟨"brisk-otter", "fix the parser",
          some ("/repo/.worktrees/brisk-otter"), "/repo/.worktrees/brisk-otter"⟩)
        (.error ("agent binary not found")) true
        [⟨"older-loop", "p", none, "/repo"⟩]
        ["/repo/.worktrees/brisk-otter"]).preflightError =
      some ("agent binary not found") ∧
    (preflightGate (.worktree ("brisk-otter") ("/repo/.worktrees/brisk-otter")
          ("/repo"))
        (some ⟨"brisk-otter", "fix the parser",
          some ("/repo/.worktrees/brisk-otter"), "/repo/.worktrees/brisk-otter"⟩)
        (.error ("agent binary not found")) true
        [⟨"older-loop", "p", none, "/repo"⟩]
        ["/repo/.worktrees/brisk-otter"]).registry =
      [⟨"older-loop", "p", none, "/repo"⟩] ∧
    ((LoopContext.worktree ("brisk-otter") ("/repo/.worktrees/brisk-otter")
        ("/repo")).isPrimary = false →
      (preflightGate (.worktree ("brisk-otter") ("/repo/.worktrees/brisk-otter")
            ("/repo"))
          (some ⟨"brisk-otter", "fix the parser",
            some ("/repo/.worktrees/brisk-otter"),
            "/repo/.worktrees/brisk-otter"⟩)
          (.error ("agent binary not found")) true
          [⟨"older-loop", "p", none, "/repo"⟩]
          ["/repo/.worktrees/brisk-otter"]).worktreeRemovalAttempted = true) ∧
    ((LoopContext.worktree ("brisk-otter") ("/repo/.worktrees/brisk-otter")
        ("/repo")).isPrimary = false → true = true →
      (LoopContext.worktree ("brisk-otter") ("/repo/.worktrees/brisk-otter")
          ("/repo")).workspace ∉
        (preflightGate (.worktree ("brisk-otter") ("/repo/.worktrees/brisk-otter")
            ("/repo"))
          (some ⟨"brisk-otter", "fix the parser",
            some ("/repo/.worktrees/brisk-otter"),
            "/repo/.worktrees/brisk-otter"⟩)
          (.error ("agent binary not found")) true
          [⟨"older-loop", "p", none, "/repo"⟩]
          ["/repo/.worktrees/brisk-otter"]).worktrees)) :=
  ⟨rfl,
   (c3_registry_after_preflight
     (.worktree ("brisk-otter") ("/repo/.worktrees/brisk-otter") ("/repo"))
     (some ⟨"brisk-otter", "fix the parser",
       some ("/repo/.worktrees/brisk-otter"), "/repo/.worktrees/brisk-otter"⟩)
     (.error ("agent binary not found")) true
     [⟨"older-loop", "p", none, "/repo"⟩]
     ["/repo/.worktrees/brisk-otter"]).1 ("agent binary not found") rfl⟩

/-! ## Continue mode (claim C8)

Embeds the ordering of the continue-mode scratchpad check in
run_command: the check sits before lock acquisition and before the loop
body is entered, so a missing scratchpad fails the run with neither a
lock acquired nor an iteration started.  The starting-event publication
happens inside loop_runner::run_loop_impl, which is not under src; it is
modelled from the spec (Boot emits task.start, or task.resume when
continue was given and the scratchpad exists). -/

/-- The externally visible steps of a run, in order. -/
inductive RunAction where
  | lockAcquisition
  | published (topic : String)
deriving DecidableEq, Repr

/-- Embeds the claim-relevant stages of run_command as the ordered list
of actions a run performs: the continue-mode check errors out before
any lock handling when the scratchpad is missing; otherwise the run
acquires (or arbitrates) the lock and the loop publishes its starting
event, task.resume in continue mode and task.start otherwise
(the publication is modelled from the spec, loop_runner not being under
src). -/
def run_command_flow (continueMode scratchpadExists : Bool) :
    Except String (List RunAction) :=
  if continueMode && !scratchpadExists then
    .error ("Cannot continue: scratchpad not found")
  else
    .ok [RunAction.lockAcquisition,
      RunAction.published (if continueMode then "task.resume" else "task.start")]

/-- Claim C8: run with continue fails before acquiring the lock or
starting any iteration when the scratchpad is missing (the run yields an
error and no action list at all); when the scratchpad exists the run
proceeds and publishes task.resume, and task.start is never among its
actions. -/
theorem c8_continue_requires_scratchpad (continueMode scratchpadExists : Bool) :
    (continueMode = true → scratchpadExists = false →
      run_command_flow continueMode scratchpadExists =
        .error ("Cannot continue: scratchpad not found")) ∧
    (continueMode = true → scratchpadExists = true →
      run_command_flow continueMode scratchpadExists =
        .ok [RunAction.lockAcquisition, RunAction.published ("task.resume")] ∧
      ∀ acts, run_command_flow continueMode scratchpadExists = .ok acts →
        RunAction.published ("task.start") ∉ acts) := by
  constructor
  · intro hc hs; subst hc; subst hs; rfl
  · intro hc hs; subst hc; subst hs
    refine ⟨rfl, ?_⟩
    intro acts hacts
    have h2 : [RunAction.lockAcquisition,
        RunAction.published ("task.resume")] = acts := by
      simpa [run_command_flow] using hacts
    subst h2
    simp

/-- Witness for claim C8, both branches at concrete inputs: continue
with a missing scratchpad errors out with no actions; continue with an
existing scratchpad publishes task.resume and never task.start. -/
theorem c8_continue_requires_scratchpad_witness :
    (run_command_flow true false =
      .error ("Cannot continue: scratchpad not found")) ∧
    (run_command_flow true true =
      .ok [RunAction.lockAcquisition, RunAction.published ("task.resume")] ∧
    ∀ acts, run_command_flow true true = .ok acts →
      RunAction.published ("task.start") ∉ acts) :=
  ⟨(c8_continue_requires_scratchpad true false).1 rfl rfl,
   (c8_continue_requires_scratchpad true true).2 rfl rfl⟩

/-! ## Waiting for a human response (claims C6)

Embeds TelegramService::check_for_response and wait_for_response from
crates/ralph-telegram/src/service.rs.  The events file is its list of
lines; positions are counted in lines (appends are line-atomic per the
journal design, so the byte offset the source tracks advances exactly
with the line index); the clock is discretized to the one-second poll
interval: snap t is the file content the poll at second t observes, and
snap 0 is also the content when the initial position is recorded. -/

/-- One raw line of the events file, described by the attributes
check_for_response inspects: whether the line trims to empty, the
outcome of serde_json parsing (with the topic and payload fields viewed
as strings, as the source reads them), whether the raw text contains
the pipe-format marker, and the message the pipe-format extraction
would yield (empty when absent). -/
structure JournalLine where
  trimEmpty : Bool
  json : Option (Option String × Option String)
  hasPipeMarker : Bool
  pipeMessage : String
deriving DecidableEq, Repr

/-- Embeds the per-line logic of check_for_response: blank lines are
skipped; a JSON line with topic human.response yields its payload
string (empty when the payload is missing or not a string); otherwise a
line containing the marker EVENT: human.response yields the extracted
pipe-format message; every other line yields nothing. -/
def lineResponse (l : JournalLine) : Option String :=
  if l.trimEmpty then none
  else
    match l.json with
    | some (topic, payloadStr) =>
        if topic = some ("human.response") then some (payloadStr.getD (""))
        else if l.hasPipeMarker then some l.pipeMessage
        else none
    | none =>
        if l.hasPipeMarker then some l.pipeMessage
        else none

/-- The scan inside check_for_response: the first line at or after the
start of the given suffix that yields a response, with its absolute
index (idx is the index of the suffix head). -/
def scanFrom : List JournalLine → Nat → Option (Nat × String)
  | [], _ => none
  | l :: rest, idx =>
      match lineResponse l with
      | some m => some (idx, m)
      | none => scanFrom rest (idx + 1)

/-- Embeds check_for_response on the events file viewed as its lines:
read from pos; on a match return the message with the position just
past the matched line; otherwise no message with the position at end of
file. -/
def check_for_response (lines : List JournalLine) (pos : Nat) :
    Option String × Nat :=
  match scanFrom (lines.drop pos) pos with
  | some (i, m) => (some m, i + 1)
  | none => (none, lines.length)

/-- The polling loop of wait_for_response: snap t is the file content
seen at second t and the fuel is the number of whole seconds left until
the deadline; when it reaches zero the wait times out. -/
def waitLoop (snap : Nat → List JournalLine) :
    Nat → Nat → Nat → Option String
  | 0, _, _ => none
  | fuel + 1, t, pos =>
      match check_for_response (snap t) pos with
      | (some m, _) => some m
      | (none, pos2) => waitLoop snap fuel (t + 1) pos2

/-- Embeds wait_for_response with timeout T seconds: the initial
position is the length of the file when the call begins, the file is
polled once per second until the deadline, and in both outcomes the
pending question stored for this loop id is removed (the telegram
StateManager is not under src and is modelled from the spec as the set
of loop ids with a pending question). -/
def wait_for_response (T : Nat) (snap : Nat → List JournalLine)
    (loopId : String) (pending : List String) :
    Option String × List String :=
  (waitLoop snap T 0 (snap 0).length, pending.erase loopId)

/-- scanFrom finds a first match: the returned index is in the scanned
suffix, the line there matches, and no earlier line of the suffix
matches. -/
theorem scanFrom_some (ls : List JournalLine) :
    ∀ (idx i : Nat) (m : String), scanFrom ls idx = some (i, m) →
      idx ≤ i ∧ (ls[i - idx]?).bind lineResponse = some m ∧
      ∀ j, j < i - idx → (ls[j]?).bind lineResponse = none := by
  induction ls with
  | nil => intro idx i m h; simp [scanFrom] at h
  | cons l rest ih =>
    intro idx i m h
    cases hr : lineResponse l with
    | some m0 =>
      rw [scanFrom, hr] at h
      obtain ⟨h1, h2⟩ : idx = i ∧ m0 = m := by
        simpa using h
      subst h1; subst h2
      refine ⟨Nat.le_refl idx, by simp [hr], ?_⟩
      intro j hj
      omega
    | none =>
      rw [scanFrom, hr] at h
      obtain ⟨hle, hhit, hfirst⟩ := ih (idx + 1) i m h
      obtain ⟨d, rfl⟩ := Nat.exists_eq_add_of_le hle
      have e1 : idx + 1 + d - idx = d + 1 := by omega
      have e2 : idx + 1 + d - (idx + 1) = d := by omega
      rw [e2] at hhit
      rw [e2] at hfirst
      refine ⟨by omega, ?_, ?_⟩
      · rw [e1]
        simpa using hhit
      · intro j hj
        rw [e1] at hj
        match j with
        | 0 => simp [hr]
        | j2 + 1 =>
          have : j2 < d := by omega
          simpa using hfirst j2 this

/-- A failed scanFrom means no line of the scanned suffix matches. -/
theorem scanFrom_none (ls : List JournalLine) :
    ∀ (idx : Nat), scanFrom ls idx = none →
      ∀ j : Nat, (ls[j]?).bind lineResponse = none := by
  induction ls with
  | nil => intro idx _ j; simp
  | cons l rest ih =>
    intro idx h j
    cases hr : lineResponse l with
    | some m0 => rw [scanFrom, hr] at h; exact absurd h (by simp)
    | none =>
      rw [scanFrom, hr] at h
      match j with
      | 0 => simp [hr]
      | j2 + 1 => simpa using ih (idx + 1) h j2

/-- A successful check_for_response returns the message of the first
matching line at or after pos. -/
theorem check_for_response_some (lines : List JournalLine) (pos : Nat)
    (m : String) (p2 : Nat) :
    check_for_response lines pos = (some m, p2) →
    ∃ i, pos ≤ i ∧ (lines[i]?).bind lineResponse = some m ∧
      ∀ j, pos ≤ j → j < i → (lines[j]?).bind lineResponse = none := by
  intro h
  cases hs : scanFrom (lines.drop pos) pos with
  | none =>
    rw [check_for_response, hs] at h
    simp at h
  | some im =>
    obtain ⟨i, m0⟩ := im
    rw [check_for_response, hs] at h
    simp only [Prod.mk.injEq, Option.some.injEq] at h
    obtain ⟨hm, hp⟩ := h
    subst hm
    obtain ⟨hle, hhit, hfirst⟩ := scanFrom_some (lines.drop pos) pos i m0 hs
    rw [List.getElem?_drop] at hhit
    have e3 : pos + (i - pos) = i := by omega
    rw [e3] at hhit
    refine ⟨i, hle, hhit, ?_⟩
    intro j hj1 hj2
    have hnone := hfirst (j - pos) (by omega)
    rw [List.getElem?_drop] at hnone
    have e4 : pos + (j - pos) = j := by omega
    rw [e4] at hnone
    exact hnone

/-- A failed check_for_response leaves the position at end of file and
means no line at or after pos matches. -/
theorem check_for_response_none (lines : List JournalLine) (pos : Nat)
    (p2 : Nat) :
    check_for_response lines pos = (none, p2) →
    p2 = lines.length ∧
    ∀ j : Nat, pos ≤ j → (lines[j]?).bind lineResponse = none := by
  intro h
  cases hs : scanFrom (lines.drop pos) pos with
  | some im =>
    obtain ⟨i, m0⟩ := im
    rw [check_for_response, hs] at h
    simp at h
  | none =>
    rw [check_for_response, hs] at h
    simp only [Prod.mk.injEq] at h
    refine ⟨h.2.symm, ?_⟩
    intro j hj
    have hnone := scanFrom_none (lines.drop pos) pos hs (j - pos)
    rw [List.getElem?_drop] at hnone
    have e4 : pos + (j - pos) = j := by omega
    rw [e4] at hnone
    exact hnone

/-- The poll snapshots form a prefix chain: later polls see extensions
of earlier ones (the journal is append-only). -/
theorem snapPrefixChain (snap : Nat → List JournalLine)
    (hmono : ∀ t, snap t <+: snap (t + 1)) :
    ∀ t k : Nat, snap t <+: snap (t + k) := by
  intro t k
  induction k with
  | zero => exact List.prefix_refl _
  | succ k2 ih => exact ih.trans (hmono (t + k2))

/-- Within the length of the shorter list, a prefix and its extension
agree at every index. -/
theorem prefixGetElem (l1 l2 : List JournalLine) (h : l1 <+: l2) (j : Nat)
    (hj : j < l1.length) : l2[j]? = l1[j]? := by
  obtain ⟨s, rfl⟩ := h
  exact List.getElem?_append_left hj

/-- A successful waitLoop run found, at some poll before the deadline,
the first matching line at or after the starting position (the position
is within the file seen at the starting poll). -/
theorem waitLoop_some (snap : Nat → List JournalLine)
    (hmono : ∀ t, snap t <+: snap (t + 1)) :
    ∀ (fuel t pos : Nat) (m : String),
      pos ≤ (snap t).length →
      waitLoop snap fuel t pos = some m →
      ∃ k, k < fuel ∧ ∃ i, pos ≤ i ∧
        ((snap (t + k))[i]?).bind lineResponse = some m ∧
        ∀ j, pos ≤ j → j < i →
          ((snap (t + k))[j]?).bind lineResponse = none := by
  intro fuel
  induction fuel with
  | zero => intro t pos m _ h; simp [waitLoop] at h
  | succ fuel ih =>
    intro t pos m hpos h
    rw [waitLoop] at h
    cases hc : check_for_response (snap t) pos with
    | mk a p2 =>
      rw [hc] at h
      cases a with
      | some m0 =>
        have hm : m0 = m := by simpa using h
        subst hm
        obtain ⟨i, hle, hhit, hfirst⟩ :=
          check_for_response_some (snap t) pos m0 p2 hc
        exact ⟨0, Nat.succ_pos fuel, i, hle, by simpa using hhit,
          fun j h1 h2 => by simpa using hfirst j h1 h2⟩
      | none =>
        have h2 : waitLoop snap fuel (t + 1) p2 = some m := by simpa using h
        obtain ⟨hp2, hnomatch⟩ := check_for_response_none (snap t) pos p2 hc
        have hp2le : p2 ≤ (snap (t + 1)).length := by
          rw [hp2]
          exact (hmono t).length_le
        obtain ⟨k, hk, i, hile, hhit, hfirst⟩ := ih (t + 1) p2 m hp2le h2
        refine ⟨k + 1, by omega, i, ?_, ?_, ?_⟩
        · omega
        · have : t + (k + 1) = t + 1 + k := by omega
          rw [this]
          exact hhit
        · intro j hj1 hj2
          have e5 : t + (k + 1) = t + 1 + k := by omega
          rw [e5]
          by_cases hcase : p2 ≤ j
          · exact hfirst j hcase hj2
          · have hjlen : j < (snap t).length := by omega
            have heq : (snap (t + 1 + k))[j]? = (snap t)[j]? := by
              have hpc : snap t <+: snap (t + (1 + k)) :=
                snapPrefixChain snap hmono t (1 + k)
              have e6 : t + (1 + k) = t + 1 + k := by omega
              rw [e6] at hpc
              exact prefixGetElem _ _ hpc j hjlen
            rw [heq]
            exact hnomatch j hj1

/-- A timed-out waitLoop run means no poll before the deadline saw any
matching line at or after the starting position. -/
theorem waitLoop_none (snap : Nat → List JournalLine)
    (hmono : ∀ t, snap t <+: snap (t + 1)) :
    ∀ (fuel t pos : Nat),
      pos ≤ (snap t).length →
      waitLoop snap fuel t pos = none →
      ∀ k, k < fuel → ∀ j, pos ≤ j →
        ((snap (t + k))[j]?).bind lineResponse = none := by
  intro fuel
  induction fuel with
  | zero => intro t pos _ _ k hk; omega
  | succ fuel ih =>
    intro t pos hpos h k hk j hj
    rw [waitLoop] at h
    cases hc : check_for_response (snap t) pos with
    | mk a p2 =>
      rw [hc] at h
      cases a with
      | some m0 => simp at h
      | none =>
        have h2 : waitLoop snap fuel (t + 1) p2 = none := by simpa using h
        obtain ⟨hp2, hnomatch⟩ := check_for_response_none (snap t) pos p2 hc
        have hp2le : p2 ≤ (snap (t + 1)).length := by
          rw [hp2]
          exact (hmono t).length_le
        match k with
        | 0 => simpa using hnomatch j hj
        | k2 + 1 =>
          by_cases hcase : p2 ≤ j
          · have := ih (t + 1) p2 hp2le h2 k2 (by omega) j hcase
            have e5 : t + (k2 + 1) = t + 1 + k2 := by omega
            rw [e5]
            exact this
          · have hjlen : j < (snap t).length := by omega
            have heq : (snap (t + (k2 + 1)))[j]? = (snap t)[j]? := by
              have hpc : snap t <+: snap (t + (k2 + 1)) :=
                snapPrefixChain snap hmono t (k2 + 1)
              exact prefixGetElem _ _ hpc j hjlen
            rw [heq]
            exact hnomatch j hj

/-- Claim C6: wait_for_response with timeout T removes the pending
question for this loop id in both outcomes; when it returns a message,
some poll before the deadline saw it as the first matching line at or
after the position recorded when the call began, so events appended
before the call are never matched; and it returns none exactly when no
poll before the deadline saw any matching line at or after that
position. -/
theorem c6_wait_for_response (T : Nat) (snap : Nat → List JournalLine)
    (loopId : String) (pending : List String)
    (hmono : ∀ t, snap t <+: snap (t + 1)) :
    (wait_for_response T snap loopId pending).2 = pending.erase loopId ∧
    (∀ m, (wait_for_response T snap loopId pending).1 = some m →
      ∃ t, t < T ∧ ∃ i, (snap 0).length ≤ i ∧
        ((snap t)[i]?).bind lineResponse = some m ∧
        ∀ j, (snap 0).length ≤ j → j < i →
          ((snap t)[j]?).bind lineResponse = none) ∧
    ((wait_for_response T snap loopId pending).1 = none →
      ∀ t, t < T → ∀ j, (snap 0).length ≤ j →
        ((snap t)[j]?).bind lineResponse = none) := by
  have hlen : (snap 0).length ≤ (snap 0).length := Nat.le_refl _
  refine ⟨rfl, ?_, ?_⟩
  · intro m h
    obtain ⟨k, hk, i, hile, hhit, hfirst⟩ :=
      waitLoop_some snap hmono T 0 (snap 0).length m hlen h
    exact ⟨k, hk, i, hile, by simpa using hhit,
      fun j h1 h2 => by simpa using hfirst j h1 h2⟩
  · intro h t ht j hj
    have := waitLoop_none snap hmono T 0 (snap 0).length hlen h t ht j hj
    simpa using this

/-- The journal line of the task.start event in the C6 witness. -/
def lineStart : JournalLine :=
  ⟨false, some (some ("task.start"), some ("go")), false, ""⟩

/-- The journal line of the human.response event in the C6 witness. -/
def lineResp : JournalLine :=
  ⟨false, some (some ("human.response"), some ("postgres")), false, ""⟩

/-- The C6 witness snapshots: the file holds one old event when the wait
begins, and the human.response is appended before the poll at second
one. -/
def snapC6 : Nat → List JournalLine :=
  fun t => if t = 0 then [lineStart] else [lineStart, lineResp]

/-- The C6 witness snapshots form a prefix chain. -/
theorem snapC6_mono : ∀ t, snapC6 t <+: snapC6 (t + 1) := by
  intro t
  match t with
  | 0 => exact ⟨[lineResp], rfl⟩
  | t2 + 1 => exact List.prefix_refl _

/-- Witness for claim C6 at the concrete snapshots: the wait returns the
payload postgres of the appended human.response, the pending question
for loop main is removed, and the matched line sits at or after the
recorded position. -/
theorem c6_wait_for_response_witness :
    (wait_for_response 3 snapC6 ("main") ["main", "other"]).1 =
      some ("postgres") ∧
    (wait_for_response 3 snapC6 ("main") ["main", "other"]).2 =
      (["main", "other"] : List String).erase ("main") ∧
    (∃ t, t < 3 ∧ ∃ i, (snapC6 0).length ≤ i ∧
      ((snapC6 t)[i]?).bind lineResponse = some ("postgres") ∧
      ∀ j, (snapC6 0).length ≤ j → j < i →
        ((snapC6 t)[j]?).bind lineResponse = none) :=
  ⟨by decide,
   (c6_wait_for_response 3 snapC6 ("main") ["main", "other"] snapC6_mono).1,
   (c6_wait_for_response 3 snapC6 ("main") ["main", "other"]
     snapC6_mono).2.1 ("postgres") (by decide)⟩
